import Mathlib

set_option maxRecDepth 4000

/-!
Shallow embedding of the curriculum parser, recommendation engine and FAQ
matcher of the tg-chat-itmo repository (final_parser.py and bot.py), with
theorems checking the specification claims against it.

Modelling conventions:
* Python strings are Lean `String`/`List Char`; `str.lower()` is modelled for
  ASCII and the Russian alphabet (the only scripts occurring in the data).
* Python float scores are modelled as exact rationals (`0.2` becomes `1/5`).
* The regular expressions of final_parser.py are modelled by executable
  functions implementing the same leftmost / greedy / lazy backtracking
  semantics on the relevant pattern shapes.
* Python `list.sort` (a stable sort) is modelled by a stable insertion sort;
  a stable sort under a total preorder has a unique result, so this agrees
  with CPython extensionally.
-/

/-- Python whitespace characters (the ASCII ones, which are the only ones the
parsed documents contain). -/
def isPySpace (c : Char) : Bool :=
  c = ' ' || c = '\t' || c = '\n' || c = '\r' || c = '\x0b' || c = '\x0c'

/-- str.lower() for ASCII letters and the Russian alphabet. -/
def pyLowerChar (c : Char) : Char :=
  if ('A' ≤ c && c ≤ 'Z') || ('А' ≤ c && c ≤ 'Я') then Char.ofNat (c.toNat + 32)
  else if c = 'Ё' then 'ё'
  else c

def pyLower (s : String) : String := ⟨s.data.map pyLowerChar⟩

/-- Python substring containment (the `in` operator on strings). -/
def containsSub (hay needle : List Char) : Bool :=
  match hay with
  | [] => needle.isEmpty
  | c :: t => needle.isPrefixOf (c :: t) || containsSub t needle

/-- int() on a nonempty string of decimal digits. -/
def natOfDigits (l : List Char) : Nat :=
  l.foldl (fun a c => a * 10 + (c.toNat - 48)) 0

/-- text.split(chr(10)). -/
def splitNL : List Char → List Char → List (List Char)
  | [], acc => [acc.reverse]
  | c :: rest, acc =>
    if c = '\n' then acc.reverse :: splitNL rest [] else splitNL rest (c :: acc)

/-- str.strip(). -/
def pyStrip (l : List Char) : List Char :=
  ((l.dropWhile isPySpace).reverse.dropWhile isPySpace).reverse

/-- str.split() with no argument: split on whitespace runs, dropping empties. -/
def splitWsAux : List Char → List Char → List (List Char)
  | [], acc => if acc.isEmpty then [] else [acc.reverse]
  | c :: rest, acc =>
    if isPySpace c then
      (if acc.isEmpty then splitWsAux rest [] else acc.reverse :: splitWsAux rest [])
    else splitWsAux rest (c :: acc)

def pyWords (s : String) : List (List Char) := splitWsAux s.data []

/-! ### The course-line regular expression

final_parser.py line 63 matches each stripped line against
 caret (backslash-d +) (dot + ?) backslash-s + (backslash-d +) backslash-s * dollar.
Group 1 is greedy over the leading digit run, group 2 is lazy, and the
trailing part (whitespace, digit group 3, optional whitespace, end) admits no
further backtracking once its start position is fixed.  `courseMatch` models
exactly this search order: longest leading digit group first, shortest lazy
middle first. -/

/-- Match of the trailing part (one-plus whitespace, digit group, optional
whitespace, end of line); returns the digit group. -/
def tailNumMatch (l : List Char) : Option (List Char) :=
  if (l.takeWhile isPySpace).isEmpty then none
  else
    if ((l.dropWhile isPySpace).takeWhile Char.isDigit).isEmpty then none
    else if ((l.dropWhile isPySpace).dropWhile Char.isDigit).all isPySpace then
      some ((l.dropWhile isPySpace).takeWhile Char.isDigit)
    else none

/-- Lazy search for the shortest nonempty middle group after which the
trailing part matches. -/
def searchNameSplit : List Char → List Char → Option (List Char × List Char)
  | _, [] => none
  | g2, c :: rest =>
    match tailNumMatch rest with
    | some ds => some (g2 ++ [c], ds)
    | none => searchNameSplit (g2 ++ [c]) rest

/-- Greedy search over the leading digit-run length (longest first). -/
def searchLeadNum (l : List Char) : Nat → Option (List Char × List Char × List Char)
  | 0 => none
  | k + 1 =>
    match searchNameSplit [] (l.drop (k + 1)) with
    | some (g2, g3) => some (l.take (k + 1), g2, g3)
    | none => searchLeadNum l k

/-- The course-line match: leading integer, lazy name, merged numeric token. -/
def courseMatch (line : List Char) : Option (Nat × List Char × List Char) :=
  match searchLeadNum line (line.takeWhile Char.isDigit).length with
  | some (g1, g2, g3) => some (natOfDigits g1, g2, g3)
  | none => none

/-- re.search of a digit run, optional whitespace and the literal semester
marker, anywhere in the line (final_parser.py line 43); returns the integer
of the digit group of the leftmost match. -/
def semSearch : List Char → Option Nat
  | [] => none
  | c :: rest =>
    if c.isDigit then
      if "семестр".data.isPrefixOf (((c :: rest).dropWhile Char.isDigit).dropWhile isPySpace) then
        some (natOfDigits ((c :: rest).takeWhile Char.isDigit))
      else semSearch rest
    else semSearch rest

/-! ### Program-name regular expression (final_parser.py line 28)

re.search of the literal marker, one-plus whitespace, a lazy group, then
either the section-header literal or end of input. -/

/-- True at the positions where an unanchored dollar matches. -/
def atLineEnd (l : List Char) : Bool := l.isEmpty || l == ['\n']

/-- Lazy extension of the program-name group, shortest first; the group
cannot cross a newline. -/
def opLazy : List Char → List Char → Option (List Char)
  | _, [] => none
  | acc, c :: rest =>
    if c = '\n' then none
    else
      if "Семестры".data.isPrefixOf rest then some (acc ++ [c])
      else if atLineEnd rest then some (acc ++ [c])
      else opLazy (acc ++ [c]) rest

/-- Greedy backtracking over the whitespace-run length after the marker. -/
def opTryWs (s : List Char) : Nat → Option (List Char)
  | 0 => none
  | w + 1 =>
    match opLazy [] (s.drop (w + 1)) with
    | some g => some g
    | none => opTryWs s w

/-- Leftmost occurrence of the whole program-name pattern. -/
def opSearch : List Char → Option (List Char)
  | [] => none
  | c :: rest =>
    if "ОП".data.isPrefixOf (c :: rest) then
      match opTryWs ((c :: rest).drop 2) ((((c :: rest).drop 2).takeWhile isPySpace).length) with
      | some g => some g
      | none => opSearch rest
    else opSearch rest

/-! ### Curriculum data model and per-line scan -/

structure Course where
  name : String
  credits : Nat
  hours : Nat
  semester : Nat
  type : String
deriving DecidableEq, Repr

structure SemBucket where
  mandatory : List Course
  elective : List Course
deriving DecidableEq, Repr

structure Curriculum where
  program_name : String
  semesters : List (Nat × SemBucket)
  elective_courses : List Course
  mandatory_courses : List Course
  all_courses : List Course
deriving DecidableEq, Repr

structure ScanState where
  curr : Curriculum
  current_semester : Option Nat
  current_section : Option String
deriving DecidableEq, Repr

/-- Credits/hours split of the merged numeric token (final_parser.py 71-76). -/
def splitCredits (tok : List Char) : Nat × Nat :=
  if 4 ≤ tok.length then (natOfDigits (tok.take 1), natOfDigits (tok.drop 1))
  else (natOfDigits tok, 0)

/-- Dict insertion of an empty semester bucket if the key is absent. -/
def initSem (n : Nat) (sems : List (Nat × SemBucket)) : List (Nat × SemBucket) :=
  if (sems.lookup n).isSome then sems else sems ++ [(n, ⟨[], []⟩)]

/-- Append the course to the mandatory or elective list of its semester. -/
def addToSem (n : Nat) (ty : String) (c : Course) (sems : List (Nat × SemBucket)) :
    List (Nat × SemBucket) :=
  sems.map (fun p =>
    if p.1 = n then
      (p.1, if ty = "mandatory" then { p.2 with mandatory := p.2.mandatory ++ [c] }
            else { p.2 with elective := p.2.elective ++ [c] })
    else p)

def mandatoryIndicators : List String := ["обязательн", "воркшоп"]

/-- One iteration of the line loop of extract_curriculum_data (lines 37-111). -/
def processLine (st : ScanState) (rawLine : List Char) : ScanState :=
  if (pyStrip rawLine).isEmpty then st
  else
    match semSearch (pyStrip rawLine) with
    | some n =>
      { st with current_semester := some n,
                curr := { st.curr with semesters := initSem n st.curr.semesters } }
    | none =>
      if containsSub (pyStrip rawLine) "Обязательные дисциплины".data then
        { st with current_section := some "mandatory" }
      else if containsSub (pyStrip rawLine) "Пул выборных дисциплин".data
              || containsSub ((pyStrip rawLine).map pyLowerChar) "выборных".data then
        { st with current_section := some "elective" }
      else
        match courseMatch (pyStrip rawLine) with
        | some (semNum, nameRaw, tok) =>
          let cr := splitCredits tok
          let sectionType :=
            match st.current_section with
            | none =>
              if mandatoryIndicators.any
                  (fun kw => containsSub ((pyStrip nameRaw).map pyLowerChar) kw.data) then
                "mandatory"
              else "elective"
            | some s => s
          let c : Course := ⟨⟨pyStrip nameRaw⟩, cr.1, cr.2, semNum, sectionType⟩
          { st with curr :=
            { st.curr with
              semesters := addToSem semNum sectionType c (initSem semNum st.curr.semesters),
              mandatory_courses :=
                if sectionType = "mandatory" then st.curr.mandatory_courses ++ [c]
                else st.curr.mandatory_courses,
              elective_courses :=
                if sectionType = "mandatory" then st.curr.elective_courses
                else st.curr.elective_courses ++ [c],
              all_courses := st.curr.all_courses ++ [c] } }
        | none => st

/-- extract_curriculum_data (final_parser.py lines 15-113). -/
def extract_curriculum_data (text : String) : Curriculum :=
  ((splitNL text.data []).foldl processLine
    ⟨⟨match opSearch text.data with
      | some g => ⟨pyStrip g⟩
      | none => "", [], [], [], []⟩, none, none⟩).curr

/-! ### Subject categorizer (final_parser.py lines 115-173) -/

/-- The fixed category registry: key, keyword list, human description. -/
def categories : List (String × List String × String) :=
  [("machine_learning",
    (["машинное обучение", "machine learning", "ml", "глубокое обучение",
      "deep learning", "нейронные сети", "neural networks", "автоматическое"],
     "Машинное обучение и ИИ")),
   ("programming",
    (["программирование", "python", "c++", "разработка", "веб-приложений",
      "микросервисов", "backend", "языки программирования"],
     "Программирование и разработка")),
   ("computer_vision",
    (["компьютерное зрение", "computer vision", "изображений", "обработка изображений",
      "генерация изображений", "мультимодальные"],
     "Компьютерное зрение")),
   ("nlp",
    (["естественного языка", "nlp", "обработка текстов", "языковые модели",
      "llm", "генеративные модели", "разговорного"],
     "Обработка естественного языка")),
   ("data_science",
    (["данные", "data", "статистика", "анализ", "визуализация",
      "временные ряды", "big data", "больших данных"],
     "Наука о данных")),
   ("systems",
    (["системы", "mlops", "devops", "контейнеризация", "gpu", "unix",
      "базы данных", "инфраструктура", "архитектура"],
     "Системы и инфраструктура")),
   ("product",
    (["продукт", "product", "бизнес", "управление", "проект",
      "аналитика", "дизайн", "прототипирование"],
     "Продуктовое управление"))]

/-- First category (in registry order) with a keyword hit in the lowercased
course name, defaulting to the catch-all bucket. -/
def assignCategory (nameLower : List Char) : String :=
  match categories.find? (fun cd => cd.2.1.any (fun kw => containsSub nameLower kw.data)) with
  | some cd => cd.1
  | none => "other"

def courseCategory (c : Course) : String := assignCategory (c.name.data.map pyLowerChar)

/-- The bucket of a category key.  The loop of categorize_subjects appends
each course, in order, to the bucket of its assigned category, so each bucket
is the in-order sublist of courses assigned to that key. -/
def categorized (curr : Curriculum) (k : String) : List Course :=
  curr.all_courses.filter (fun c => courseCategory c == k)

/-- The 8 bucket keys, in the iteration order of the result dict. -/
def categoryKeys : List String := categories.map (fun cd => cd.1) ++ ["other"]

/-! ### Profile classifier registry (final_parser.py lines 179-332) -/

structure ProfileData where
  keywords : List String
  preferences : List String
  description : String
deriving DecidableEq, Repr

def fullstackProfile : ProfileData :=
  ⟨["фуллстек", "fullstack", "full-stack", "full stack",
    "разработчик", "программист", "developer", "programmer",
    "фронтенд", "frontend", "front-end", "бэкенд", "backend", "back-end",
    "сервисы", "services", "веб", "web", "приложения", "applications",
    "инфраструктура", "infrastructure", "devops",
    "python", "javascript", "react", "node", "django", "flask",
    "api", "rest", "микросервисы", "microservices",
    "яндекс", "yandex", "опыт", "experience", "работаю", "работал"],
   ["programming", "systems", "machine_learning"],
   "Fullstack разработчик"⟩

def mlEngineerProfile : ProfileData :=
  ⟨["ml engineer", "машинное обучение", "machine learning", "ml",
    "модели", "models", "алгоритмы", "algorithms", "нейронные сети",
    "deep learning", "глубокое обучение", "tensorflow", "pytorch",
    "sklearn", "data science", "ai", "artificial intelligence",
    "kaggle", "соревнования", "competitions"],
   ["machine_learning", "programming", "systems"],
   "ML Engineer"⟩

def dataScientistProfile : ProfileData :=
  ⟨["data scientist", "данные", "data", "аналитик", "analyst",
    "статистика", "statistics", "анализ данных", "data analysis",
    "pandas", "numpy", "jupyter", "visualization", "визуализация",
    "bi", "business intelligence", "дашборды", "dashboards"],
   ["data_science", "machine_learning", "programming"],
   "Data Scientist"⟩

def cvSpecialistProfile : ProfileData :=
  ⟨["computer vision", "компьютерное зрение", "cv", "изображения",
    "images", "opencv", "обработка изображений", "image processing",
    "распознавание", "recognition", "детекция", "detection",
    "сегментация", "segmentation", "yolo", "cnn"],
   ["computer_vision", "machine_learning", "programming"],
   "Computer Vision специалист"⟩

def nlpSpecialistProfile : ProfileData :=
  ⟨["nlp", "natural language processing", "естественный язык",
    "обработка языка", "текст", "text", "языковые модели",
    "language models", "llm", "bert", "gpt", "transformers",
    "чатботы", "chatbots", "sentiment", "тональность"],
   ["nlp", "machine_learning", "programming"],
   "NLP специалист"⟩

def productManagerProfile : ProfileData :=
  ⟨["product manager", "продукт", "product", "менеджер", "manager",
    "управление", "management", "бизнес", "business", "стратегия",
    "strategy", "roadmap", "планирование", "planning", "продуктовый",
    "аналитика", "analytics", "метрики", "metrics", "a/b тесты"],
   ["product", "data_science", "machine_learning"],
   "Product Manager"⟩

def systemsArchitectProfile : ProfileData :=
  ⟨["архитектор", "architect", "системы", "systems", "архитектура",
    "architecture", "высоконагруженные", "highload", "high-load",
    "масштабирование", "scaling", "производительность", "performance",
    "инфраструктура", "infrastructure", "облако", "cloud",
    "kubernetes", "docker", "микросервисы"],
   ["systems", "programming", "machine_learning"],
   "Системный архитектор"⟩

def backendDeveloperProfile : ProfileData :=
  ⟨["backend", "бэкенд", "серверная разработка", "server-side",
    "api", "rest", "graphql", "базы данных", "databases",
    "postgresql", "mysql", "mongodb", "redis",
    "java", "go", "c#", "node.js", "spring"],
   ["programming", "systems", "data_science"],
   "Backend разработчик"⟩

def frontendDeveloperProfile : ProfileData :=
  ⟨["frontend", "фронтенд", "клиентская разработка", "client-side",
    "react", "vue", "angular", "javascript", "typescript",
    "html", "css", "ui", "ux", "интерфейсы", "interfaces"],
   ["programming", "product", "machine_learning"],
   "Frontend разработчик"⟩

def mobileDeveloperProfile : ProfileData :=
  ⟨["mobile", "мобильная разработка", "android", "ios",
    "react native", "flutter", "swift", "kotlin",
    "приложения", "apps", "мобильные приложения"],
   ["programming", "product", "systems"],
   "Mobile разработчик"⟩

def devopsEngineerProfile : ProfileData :=
  ⟨["devops", "деплой", "deployment", "ci/cd", "jenkins",
    "gitlab", "github actions", "terraform", "ansible",
    "мониторинг", "monitoring", "логирование", "logging"],
   ["systems", "programming", "machine_learning"],
   "DevOps Engineer"⟩

def qaEngineerProfile : ProfileData :=
  ⟨["qa", "тестирование", "testing", "автотесты", "automation",
    "selenium", "pytest", "качество", "quality assurance",
    "баги", "bugs", "тест-кейсы", "test cases"],
   ["programming", "systems", "product"],
   "QA Engineer"⟩

def businessAnalystProfile : ProfileData :=
  ⟨["business analyst", "бизнес-аналитик", "аналитик",
    "требования", "requirements", "процессы", "processes",
    "документация", "documentation", "stakeholders"],
   ["product", "data_science", "programming"],
   "Бизнес-аналитик"⟩

def researcherProfile : ProfileData :=
  ⟨["исследователь", "researcher", "наука", "science",
    "исследования", "research", "публикации", "papers",
    "эксперименты", "experiments", "phd", "кандидат наук"],
   ["machine_learning", "data_science", "programming"],
   "Исследователь"⟩

def studentProfile : ProfileData :=
  ⟨["студент", "student", "учусь", "studying", "университет",
    "вуз", "институт", "курсовые", "дипломная", "thesis",
    "бакалавр", "bachelor", "магистр", "master"],
   ["machine_learning", "programming", "data_science"],
   "Студент"⟩

/-- The user_profiles registry, in dict insertion order. -/
def user_profiles : List (String × ProfileData) :=
  [("fullstack_developer", fullstackProfile),
   ("ml_engineer", mlEngineerProfile),
   ("data_scientist", dataScientistProfile),
   ("cv_specialist", cvSpecialistProfile),
   ("nlp_specialist", nlpSpecialistProfile),
   ("product_manager", productManagerProfile),
   ("systems_architect", systemsArchitectProfile),
   ("backend_developer", backendDeveloperProfile),
   ("frontend_developer", frontendDeveloperProfile),
   ("mobile_developer", mobileDeveloperProfile),
   ("devops_engineer", devopsEngineerProfile),
   ("qa_engineer", qaEngineerProfile),
   ("business_analyst", businessAnalystProfile),
   ("researcher", researcherProfile),
   ("student", studentProfile)]

/-! ### Profile scoring and selection (final_parser.py lines 334-378) -/

/-- matched_keywords of one profile: the registry keywords occurring as
substrings of the lowercased biography. -/
def profileRawMatches (bgLower : String) (pd : ProfileData) : List String :=
  pd.keywords.filter (fun kw => containsSub bgLower.data kw.data)

/-- Score after the distinct-hit bonus of lines 348-349. -/
def adjScoreQ (n : Nat) : ℚ :=
  if 0 < n then (n : ℚ) * (1 + (n : ℚ) * (1 / 10)) else (n : ℚ)

def profile_scores (bgLower : String) : List (String × ℚ) :=
  user_profiles.map (fun p => (p.1, adjScoreQ (profileRawMatches bgLower p.2).length))

/-- Scores with the bonus left off (used to compare the selection with a
plain стable argmax over raw counts). -/
def raw_scores (bgLower : String) : List (String × ℚ) :=
  user_profiles.map (fun p => (p.1, ((profileRawMatches bgLower p.2).length : ℚ)))

/-- The running-best loop of lines 360-363: replace iff strictly greater. -/
def bestLoop : List (String × ℚ) → Option String × ℚ → Option String × ℚ
  | [], acc => acc
  | (n, v) :: rest, (bp, bs) => bestLoop rest (if bs < v then (some n, v) else (bp, bs))

def findBestProfile (xs : List (String × ℚ)) : Option String × ℚ := bestLoop xs (none, 0)

structure ProfileChoice where
  dominant : Option String
  preferences : List String
  description : String
deriving DecidableEq, Repr

/-- Fallback of lines 370-378 when no profile scored positively. -/
def profileFallback (bgLower : String) : ProfileChoice :=
  if ["программист", "разработчик", "developer", "код", "code"].any
      (fun w => containsSub bgLower.data w.data) then
    ⟨some "general_developer", ["programming", "systems", "machine_learning"],
     "Разработчик (общий профиль)"⟩
  else
    ⟨none, ["machine_learning", "programming", "data_science"], "Не определен"⟩

/-- Preferences and description of a registry profile (lines 366-368); the
lookup never misses because the loop only yields registry keys. -/
def registryChoice (p : String) : ProfileChoice :=
  match user_profiles.lookup p with
  | some pd => ⟨some p, pd.preferences, pd.description⟩
  | none => ⟨some p, [], ""⟩

/-- Dominant profile, preference order and description for a biography. -/
def profileChoice (bg : String) : ProfileChoice :=
  match (findBestProfile (profile_scores (pyLower bg))).1 with
  | some p =>
    if 0 < (findBestProfile (profile_scores (pyLower bg))).2 then registryChoice p
    else profileFallback (pyLower bg)
  | none => profileFallback (pyLower bg)

/-- matched_keywords reported in the result dict (line 415). -/
def matchedKeywordsOut (bg : String) : List String :=
  match (findBestProfile (profile_scores (pyLower bg))).1 with
  | some p =>
    match user_profiles.lookup p with
    | some pd => profileRawMatches (pyLower bg) pd
    | none => []
  | none => []

/-! ### Stable sort (model of Python list.sort) -/

/-- Insert x before the first element y with le x y. -/
def insertLe (le : α → α → Bool) (x : α) : List α → List α
  | [] => [x]
  | y :: ys => if le x y then x :: y :: ys else y :: insertLe le x ys

/-- Stable insertion sort.  A stable sort under a total preorder has a unique
result, so this agrees with the CPython sorting algorithm. -/
def stableSortBy (le : α → α → Bool) : List α → List α
  | [] => []
  | x :: xs => insertLe le x (stableSortBy le xs)

/-! ### Recommendation engine (final_parser.py lines 383-423) -/

structure Rec where
  course : Course
  category : String
  reason : String
  priority : Nat
deriving DecidableEq, Repr

/-- Descending-by-credits comparison used for the per-category sort
(line 392, key credits, reverse). -/
def creditsGe (a b : Course) : Bool := decide (b.credits ≤ a.credits)

/-- Descending lexicographic comparison on the composite key
(priority, credits) used for the final sort (line 409). -/
def recGe (a b : Rec) : Bool :=
  decide (b.priority < a.priority ∨
    (b.priority = a.priority ∧ b.course.credits ≤ a.course.credits))

/-- Reason string of lines 397-399. -/
def recReason (choice : ProfileChoice) (i : Nat) : String :=
  if i = 0 then
    (match choice.dominant with
     | some _ => "Рекомендовано для " ++ choice.description
     | none => "Базовая рекомендация") ++ " (приоритетная область)"
  else
    match choice.dominant with
    | some _ => "Рекомендовано для " ++ choice.description
    | none => "Базовая рекомендация"

/-- Recommendations emitted for the preferred category at position i:
elective courses only, stable-sorted descending by credits, first
max 1 (4 - i) kept (lines 387-406). -/
def recsForCategory (choice : ProfileChoice) (i : Nat) (cat : String)
    (subjects : List Course) : List Rec :=
  ((stableSortBy creditsGe (subjects.filter (fun s => s.type == "elective"))).take
      (max 1 (4 - i))).map
    (fun s => ⟨s, cat, recReason choice i, choice.preferences.length - i⟩)

/-- Candidate pool over all preferred categories, before the final sort. -/
def recPool (choice : ProfileChoice) (curr : Curriculum) : List Rec :=
  choice.preferences.enum.flatMap
    (fun p => recsForCategory choice p.1 p.2 (categorized curr p.2))

structure RecResult where
  user_profile : String
  dominant_profile_key : Option String
  profile_scores : List (String × ℚ)
  matched_keywords : List String
  recommendations : List Rec
  category_distribution : List (String × Nat)
  analysis_total_courses : Nat
  analysis_elective_courses : Nat
  analysis_categories_found : Nat
deriving DecidableEq, Repr

/-- generate_recommendations (final_parser.py lines 175-423). -/
def generate_recommendations (bg : String) (curr : Curriculum) : RecResult :=
  { user_profile := (profileChoice bg).description
    dominant_profile_key := (profileChoice bg).dominant
    profile_scores := profile_scores (pyLower bg)
    matched_keywords := matchedKeywordsOut bg
    recommendations := (stableSortBy recGe (recPool (profileChoice bg) curr)).take 10
    category_distribution := categoryKeys.map (fun k => (k, (categorized curr k).length))
    analysis_total_courses := curr.all_courses.length
    analysis_elective_courses := curr.elective_courses.length
    analysis_categories_found :=
      (categoryKeys.filter (fun k => !(categorized curr k).isEmpty)).length }

/-! ### FAQ matcher (bot.py lines 37-150) -/

structure FAQItem where
  question : String
  answer : String
deriving DecidableEq, Repr

structure FAQMatch where
  question : String
  answer : String
  program : String
  score : ℚ
  matched_words : List String
deriving DecidableEq, Repr

/-- The relevance keyword set of bot.py lines 38-59 (a Python set literal;
iteration order is irrelevant to the any-containment test). -/
def relevant_keywords : List String :=
  ["поступление", "поступить", "экзамен", "экзамены", "магистратура", "обучение",
   "программа", "программы",
   "диплом", "стипендия", "карьера", "образование", "учеба", "учебный", "план", "планы",
   "курс", "курсы", "предмет", "предметы", "дисциплина", "дисциплины", "проект",
   "практика", "стажировка",
   "искусственный интеллект", "ии", "ai", "машинное обучение", "ml", "продукт",
   "продуктовый",
   "высоконагруженные", "системы", "highload", "программное обеспечение", "по",
   "итмо", "itmo", "университет", "вуз", "институт",
   "содержание", "содержании", "что изучают", "что изучается", "чему учат",
   "чему обучают",
   "количество", "сколько", "места", "мест", "бюджет", "бюджетные", "платные",
   "стоимость", "цена", "оплата", "стоит", "стоимости",
   "требования", "условия", "как поступить", "документы",
   "длительность", "срок", "года", "лет", "семестр", "семестры",
   "преподаватели", "кафедра", "факультет", "направление",
   "выпускники", "трудоустройство", "работа", "карьера"]

/-- is_relevant_question (bot.py lines 73-76). -/
def is_relevant_question (question : String) : Bool :=
  relevant_keywords.any (fun kw => containsSub (pyLower question).data kw.data)

/-- The important-word bonus set of line 114. -/
def important_words : List String :=
  ["содержание", "программа", "количество", "места", "стоимость", "поступление",
   "экзамен"]

/-- The question-type synonym buckets of lines 120-125, in insertion order. -/
def question_types : List (List String) :=
  [["что", "какое", "какая", "какие"],
   ["сколько", "количество"],
   ["как", "каким образом"],
   ["когда", "срок", "время"]]

/-- Composite score of one FAQ entry (bot.py lines 94-137).  The difflib
string-similarity ratio is an external collaborator and is passed in as the
function sim. -/
def totalScore (sim : String → String → ℚ) (qLower : String)
    (qWords : List (List Char)) (it : FAQItem) : ℚ :=
  sim qLower (pyLower it.question) * (2 / 5) +
    ((qWords.filter (fun w => w ∈ pyWords (pyLower it.question))).length : ℚ) /
      (max qWords.length 1 : ℚ) * (3 / 10) +
    ((qWords.filter (fun w => containsSub (pyLower it.answer).data w)).length : ℚ) /
      (max qWords.length 1 : ℚ) * (1 / 5) +
    ((important_words.filter (fun w =>
        containsSub qLower.data w.data && containsSub (pyLower it.question).data w.data)).length : ℚ) *
      (1 / 5) +
    ((question_types.filter (fun vs =>
        vs.any (fun v => containsSub qLower.data v.data) &&
          vs.any (fun v => containsSub (pyLower it.question).data v.data))).length : ℚ) *
      (3 / 20)

/-- The best_match record built at lines 142-148. -/
def buildFaqMatch (qWords : List (List Char)) (pn : String) (it : FAQItem) (s : ℚ) :
    FAQMatch :=
  ⟨it.question, it.answer, pn, s,
   (qWords.filter (fun w => w ∈ pyWords (pyLower it.question))).map
     (fun w => (⟨w⟩ : String))⟩

/-- The scan loop of lines 90-148: a candidate replaces the running best iff
its score strictly exceeds the current best and strictly exceeds 1/5. -/
def faqScan (sim : String → String → ℚ) (qLower : String) (qWords : List (List Char)) :
    List (String × FAQItem) → Option FAQMatch × ℚ → Option FAQMatch × ℚ
  | [], acc => acc
  | (pn, it) :: rest, (bm, bs) =>
    faqScan sim qLower qWords rest
      (if bs < totalScore sim qLower qWords it ∧ (1 : ℚ) / 5 < totalScore sim qLower qWords it
       then (some (buildFaqMatch qWords pn it (totalScore sim qLower qWords it)),
             totalScore sim qLower qWords it)
       else (bm, bs))

/-- The program/FAQ nesting flattened in loop order. -/
def corpusEntries (corpus : List (String × List FAQItem)) : List (String × FAQItem) :=
  corpus.flatMap (fun pr => pr.2.map (fun it => (pr.1, it)))

/-- find_best_answer (bot.py lines 78-150). -/
def find_best_answer (sim : String → String → ℚ) (q : String)
    (corpus : List (String × List FAQItem)) : Option FAQMatch :=
  if is_relevant_question q then
    (faqScan sim (pyLower q) ((pyWords (pyLower q)).dedup) (corpusEntries corpus)
      (none, 0)).1
  else none

/-! ### Spec-side selection functions, for comparison with the loops -/

/-- First-wins argmax written from the spec: the first entry whose value
equals the maximum, provided the maximum is positive. -/
def specFirstPosMax (xs : List (String × ℚ)) : Option String × ℚ :=
  match xs.find? (fun nv =>
      decide (nv.2 = (xs.map Prod.snd).foldl max 0) && decide ((0 : ℚ) < nv.2)) with
  | some nv => (some nv.1, nv.2)
  | none => (none, 0)

/-- Every corpus entry paired with its composite score and the match record
it would produce. -/
def scoredEntries (sim : String → String → ℚ) (q : String)
    (corpus : List (String × List FAQItem)) : List (FAQMatch × ℚ) :=
  (corpusEntries corpus).map (fun e =>
    (buildFaqMatch ((pyWords (pyLower q)).dedup) e.1 e.2
       (totalScore sim (pyLower q) ((pyWords (pyLower q)).dedup) e.2),
     totalScore sim (pyLower q) ((pyWords (pyLower q)).dedup) e.2))

/-- FAQ selection written from the spec: the first entry attaining the
maximal composite score, provided that maximum clears the 1/5 floor. -/
def specFaqBest (sim : String → String → ℚ) (q : String)
    (corpus : List (String × List FAQItem)) : Option FAQMatch :=
  match (scoredEntries sim q corpus).find? (fun p =>
      decide (p.2 = ((scoredEntries sim q corpus).map Prod.snd).foldl max 0) &&
        decide ((1 : ℚ) / 5 < p.2)) with
  | some p => some p.1
  | none => none

/-- Generic running-best loop with a floor, used to characterize faqScan. -/
def selLoop (t : ℚ) : List (α × ℚ) → Option α × ℚ → Option α × ℚ
  | [], acc => acc
  | (a, s) :: rest, (b, bs) =>
    selLoop t rest (if bs < s ∧ t < s then (some a, s) else (b, bs))

/-! ### Concrete inputs used by the witnesses -/

def demoText : String := "2Машинное обучение 1306"

def demoCourse : Course := ⟨"Машинное обучение", 1, 306, 2, "elective"⟩

def demoCourseML : Course := ⟨"machine learning", 5, 0, 1, "elective"⟩

def demoCurr : Curriculum := ⟨"", [], [demoCourseML], [], [demoCourseML]⟩

def demoLine : List Char := "1 семестр 2306".data

def st0 : ScanState := ⟨⟨"", [], [], [], []⟩, none, none⟩

def demoCorpus : List (String × List FAQItem) :=
  [("AI", [⟨"Сколько стоит обучение?", "Стоимость 450000 рублей в год"⟩])]

def simZero : String → String → ℚ := fun _ _ => 0

/-! ### Lemmas about the stable sort -/

theorem insertLe_perm (le : α → α → Bool) (x : α) (l : List α) :
    (insertLe le x l).Perm (x :: l) := by
  induction l with
  | nil => simp [insertLe]
  | cons y ys ih =>
    unfold insertLe
    split
    · exact List.Perm.refl _
    · exact (ih.cons y).trans (List.Perm.swap x y ys)

theorem stableSortBy_perm (le : α → α → Bool) (l : List α) :
    (stableSortBy le l).Perm l := by
  induction l with
  | nil => simp [stableSortBy]
  | cons x xs ih => exact (insertLe_perm le x (stableSortBy le xs)).trans (ih.cons x)

theorem insertLe_pairwise {le : α → α → Bool}
    (htot : ∀ a b, le a b = true ∨ le b a = true)
    (htr : ∀ a b c, le a b = true → le b c = true → le a c = true)
    (x : α) {l : List α} (hl : l.Pairwise (fun a b => le a b = true)) :
    (insertLe le x l).Pairwise (fun a b => le a b = true) := by
  induction l with
  | nil => simp [insertLe]
  | cons y ys ih =>
    rw [List.pairwise_cons] at hl
    unfold insertLe
    split
    case isTrue h =>
      rw [List.pairwise_cons]
      refine ⟨?_, List.pairwise_cons.mpr hl⟩
      intro z hz
      rcases List.mem_cons.mp hz with rfl | hz2
      · exact h
      · exact htr x y z h (hl.1 z hz2)
    case isFalse h =>
      rw [List.pairwise_cons]
      refine ⟨?_, ih hl.2⟩
      intro z hz
      rcases List.mem_cons.mp ((insertLe_perm le x ys).mem_iff.mp hz) with rfl | hz3
      · rcases htot z y with h1 | h1
        · exact absurd h1 h
        · exact h1
      · exact hl.1 z hz3

theorem stableSortBy_pairwise {le : α → α → Bool}
    (htot : ∀ a b, le a b = true ∨ le b a = true)
    (htr : ∀ a b c, le a b = true → le b c = true → le a c = true)
    (l : List α) :
    (stableSortBy le l).Pairwise (fun a b => le a b = true) := by
  induction l with
  | nil => simp [stableSortBy]
  | cons x xs ih => exact insertLe_pairwise htot htr x ih

theorem insertLe_decomp (le : α → α → Bool) (x : α) (l : List α) :
    ∃ l₁ l₂, l = l₁ ++ l₂ ∧ insertLe le x l = l₁ ++ x :: l₂ ∧
      ∀ y ∈ l₁, le x y = false := by
  induction l with
  | nil => exact ⟨[], [], rfl, rfl, by simp⟩
  | cons y ys ih =>
    by_cases h : le x y = true
    · exact ⟨[], y :: ys, rfl, by simp [insertLe, h], by simp⟩
    · obtain ⟨l₁, l₂, he, hi, hni⟩ := ih
      refine ⟨y :: l₁, l₂, by rw [List.cons_append, ← he], ?_, ?_⟩
      · simp [insertLe, h, hi]
      · intro z hz
        rcases List.mem_cons.mp hz with rfl | hz2
        · simpa using h
        · exact hni z hz2

theorem filter_insertLe_pos {le : α → α → Bool} {p : α → Bool} {x : α}
    (hx : p x = true) (hcl : ∀ y, p y = true → le x y = true) (l : List α) :
    (insertLe le x l).filter p = x :: l.filter p := by
  obtain ⟨l₁, l₂, he, hi, hni⟩ := insertLe_decomp le x l
  have h1 : l₁.filter p = [] := by
    rw [List.filter_eq_nil_iff]
    intro a ha hpa
    have h2 := hcl a hpa
    rw [hni a ha] at h2
    exact Bool.false_ne_true h2
  rw [hi, List.filter_append, he, List.filter_append, h1, List.filter_cons, hx]
  simp

theorem filter_insertLe_neg {le : α → α → Bool} {p : α → Bool} {x : α}
    (hx : p x = false) (l : List α) :
    (insertLe le x l).filter p = l.filter p := by
  obtain ⟨l₁, l₂, he, hi, _⟩ := insertLe_decomp le x l
  rw [hi, he, List.filter_append, List.filter_append, List.filter_cons, hx]
  simp

theorem stableSortBy_filter_class {le : α → α → Bool} {p : α → Bool}
    (hcl : ∀ a b, p a = true → p b = true → le a b = true) (l : List α) :
    (stableSortBy le l).filter p = l.filter p := by
  induction l with
  | nil => rfl
  | cons x xs ih =>
    unfold stableSortBy
    by_cases hx : p x = true
    · rw [filter_insertLe_pos hx (fun y hy => hcl x y hx hy), ih, List.filter_cons, hx]
      simp
    · have hx2 : p x = false := by simpa using hx
      rw [filter_insertLe_neg hx2, ih, List.filter_cons, hx2]
      simp

/-! ### Lemmas about foldl max over the rationals -/

theorem le_foldl_max (l : List ℚ) : ∀ b : ℚ, b ≤ l.foldl max b := by
  induction l with
  | nil => intro b; exact le_refl b
  | cons x xs ih =>
    intro b
    simp only [List.foldl_cons]
    exact le_trans (le_max_left b x) (ih (max b x))

theorem foldl_max_mem (l : List ℚ) : ∀ b : ℚ, l.foldl max b = b ∨ l.foldl max b ∈ l := by
  induction l with
  | nil => intro b; exact Or.inl rfl
  | cons x xs ih =>
    intro b
    simp only [List.foldl_cons]
    rcases ih (max b x) with h | h
    · rcases max_choice b x with h2 | h2
      · rw [h, h2]; exact Or.inl rfl
      · rw [h, h2]; exact Or.inr (List.mem_cons_self x xs)
    · exact Or.inr (List.mem_cons_of_mem x h)

theorem foldl_max_right (l : List ℚ) :
    ∀ b c : ℚ, l.foldl max (max b c) = max (l.foldl max b) c := by
  induction l with
  | nil => intro b c; rfl
  | cons x xs ih =>
    intro b c
    simp only [List.foldl_cons]
    rw [show max (max b c) x = max (max b x) c by
      rw [max_assoc, max_comm c x, ← max_assoc]]
    exact ih (max b x) c

/-! ### Characterization of the running-best loops -/

theorem bestLoop_eq (xs : List (String × ℚ)) : ∀ (bp : Option String) (bs : ℚ),
    bestLoop xs (bp, bs) =
      match xs.find? (fun nv =>
          decide (nv.2 = (xs.map Prod.snd).foldl max bs) && decide (bs < nv.2)) with
      | some nv => (some nv.1, nv.2)
      | none => (bp, bs) := by
  induction xs with
  | nil => intro bp bs; rfl
  | cons hd tl ih =>
    intro bp bs
    obtain ⟨n, v⟩ := hd
    rw [List.find?_cons]
    by_cases hv : bs < v
    · have h1 : bestLoop ((n, v) :: tl) (bp, bs) = bestLoop tl (some n, v) := by
        simp [bestLoop, hv]
      have hM : (((n, v) :: tl).map Prod.snd).foldl max bs =
          (tl.map Prod.snd).foldl max v := by
        simp only [List.map_cons, List.foldl_cons]
        rw [max_eq_right (le_of_lt hv)]
      rw [h1, ih (some n) v, hM]
      by_cases hMv : v = (tl.map Prod.snd).foldl max v
      · have hfind : tl.find? (fun nv =>
            decide (nv.2 = (tl.map Prod.snd).foldl max v) && decide (v < nv.2)) = none := by
          rw [List.find?_eq_none]
          intro x _
          simp only [Bool.and_eq_true, decide_eq_true_eq, not_and]
          intro he
          rw [he, ← hMv]
          exact lt_irrefl v
        have hhd : (decide (v = (tl.map Prod.snd).foldl max v) && decide (bs < v)) = true := by
          simp [← hMv, hv]
        rw [hfind, hhd]
      · have hvM : v < (tl.map Prod.snd).foldl max v :=
          lt_of_le_of_ne (le_foldl_max _ v) hMv
        have hhd : (decide (v = (tl.map Prod.snd).foldl max v) && decide (bs < v)) = false := by
          simp [hMv]
        rw [hhd]
        have hpe : (fun nv : String × ℚ =>
              decide (nv.2 = (tl.map Prod.snd).foldl max v) && decide (v < nv.2)) =
            (fun nv : String × ℚ =>
              decide (nv.2 = (tl.map Prod.snd).foldl max v) && decide (bs < nv.2)) := by
          funext nv
          by_cases hz : nv.2 = (tl.map Prod.snd).foldl max v
          · simp [hz, hvM, lt_trans hv hvM]
          · simp [hz]
        rw [hpe]
        cases hf : tl.find? (fun nv =>
            decide (nv.2 = (tl.map Prod.snd).foldl max v) && decide (bs < nv.2)) with
        | some nv => rfl
        | none =>
          exfalso
          rcases foldl_max_mem (tl.map Prod.snd) v with h | h
          · exact hMv h.symm
          · obtain ⟨nv, hnv, hnv2⟩ := List.mem_map.mp h
            have h3 := List.find?_eq_none.mp hf nv hnv
            apply h3
            simp [hnv2, lt_trans hv hvM]
    · have h1 : bestLoop ((n, v) :: tl) (bp, bs) = bestLoop tl (bp, bs) := by
        simp [bestLoop, hv]
      have hM : (((n, v) :: tl).map Prod.snd).foldl max bs =
          (tl.map Prod.snd).foldl max bs := by
        simp only [List.map_cons, List.foldl_cons]
        rw [max_eq_left (not_lt.mp hv)]
      have hhd : (decide (v = (((n, v) :: tl).map Prod.snd).foldl max bs) &&
          decide (bs < v)) = false := by
        simp [hv]
      rw [h1, ih bp bs, hM] at *
      rw [hhd]

theorem selLoop_eq {α : Type} (t : ℚ) (xs : List (α × ℚ)) :
    ∀ (b : Option α) (bs : ℚ),
    selLoop t xs (b, bs) =
      match xs.find? (fun p =>
          decide (p.2 = (xs.map Prod.snd).foldl max bs) && decide (bs < p.2) &&
            decide (t < p.2)) with
      | some p => (some p.1, p.2)
      | none => (b, bs) := by
  induction xs with
  | nil => intro b bs; rfl
  | cons hd tl ih =>
    intro b bs
    obtain ⟨a, s⟩ := hd
    rw [List.find?_cons]
    have hM0 : (((a, s) :: tl).map Prod.snd).foldl max bs =
        (tl.map Prod.snd).foldl max (max bs s) := by
      simp only [List.map_cons, List.foldl_cons]
    by_cases hC : bs < s ∧ t < s
    · have h1 : selLoop t ((a, s) :: tl) (b, bs) = selLoop t tl (some a, s) := by
        simp [selLoop, hC]
      have hM : (((a, s) :: tl).map Prod.snd).foldl max bs =
          (tl.map Prod.snd).foldl max s := by
        rw [hM0, max_eq_right (le_of_lt hC.1)]
      rw [h1, ih (some a) s, hM]
      by_cases hMs : s = (tl.map Prod.snd).foldl max s
      · have hfind : tl.find? (fun p =>
            decide (p.2 = (tl.map Prod.snd).foldl max s) && decide (s < p.2) &&
              decide (t < p.2)) = none := by
          rw [List.find?_eq_none]
          intro x _ hx
          simp only [Bool.and_eq_true, decide_eq_true_eq] at hx
          obtain ⟨⟨hxm, hxs⟩, _⟩ := hx
          rw [hxm, ← hMs] at hxs
          exact lt_irrefl s hxs
        have hhd : (decide (s = (tl.map Prod.snd).foldl max s) && decide (bs < s) &&
            decide (t < s)) = true := by
          simp [← hMs, hC.1, hC.2]
        rw [hfind, hhd]
      · have hsM : s < (tl.map Prod.snd).foldl max s :=
          lt_of_le_of_ne (le_foldl_max _ s) hMs
        have hhd : (decide (s = (tl.map Prod.snd).foldl max s) && decide (bs < s) &&
            decide (t < s)) = false := by
          simp [hMs]
        rw [hhd]
        have hpe : (fun p : α × ℚ =>
              decide (p.2 = (tl.map Prod.snd).foldl max s) && decide (s < p.2) &&
                decide (t < p.2)) =
            (fun p : α × ℚ =>
              decide (p.2 = (tl.map Prod.snd).foldl max s) && decide (bs < p.2) &&
                decide (t < p.2)) := by
          funext p
          by_cases hz : p.2 = (tl.map Prod.snd).foldl max s
          · simp [hz, hsM, lt_trans hC.1 hsM]
          · simp [hz]
        rw [hpe]
        cases hf : tl.find? (fun p : α × ℚ =>
            decide (p.2 = (tl.map Prod.snd).foldl max s) && decide (bs < p.2) &&
              decide (t < p.2)) with
        | some p => rfl
        | none =>
          exfalso
          rcases foldl_max_mem (tl.map Prod.snd) s with h | h
          · exact hMs h.symm
          · obtain ⟨p, hp, hp2⟩ := List.mem_map.mp h
            apply List.find?_eq_none.mp hf p hp
            simp [hp2, lt_trans hC.1 hsM, lt_trans hC.2 hsM]
    · have h1 : selLoop t ((a, s) :: tl) (b, bs) = selLoop t tl (b, bs) := by
        simp [selLoop, hC]
      have hhd : (decide (s = (((a, s) :: tl).map Prod.snd).foldl max bs) &&
          decide (bs < s) && decide (t < s)) = false := by
        rcases not_and_or.mp hC with h2 | h2 <;> simp [h2]
      rw [h1, ih b bs, hhd]
      by_cases hbs : bs < s
      · have hts : s ≤ t := le_of_not_lt (fun ht => hC ⟨hbs, ht⟩)
        have hM1 : (((a, s) :: tl).map Prod.snd).foldl max bs =
            max ((tl.map Prod.snd).foldl max bs) s := by
          rw [hM0, foldl_max_right]
        by_cases hs2 : s ≤ (tl.map Prod.snd).foldl max bs
        · rw [show (((a, s) :: tl).map Prod.snd).foldl max bs =
              (tl.map Prod.snd).foldl max bs from hM1.trans (max_eq_left hs2)]
        · have hs3 : (tl.map Prod.snd).foldl max bs < s := not_le.mp hs2
          have hL : tl.find? (fun p : α × ℚ =>
              decide (p.2 = (tl.map Prod.snd).foldl max bs) && decide (bs < p.2) &&
                decide (t < p.2)) = none := by
            rw [List.find?_eq_none]
            intro x _ hx
            simp only [Bool.and_eq_true, decide_eq_true_eq] at hx
            obtain ⟨⟨hxm, _⟩, hxt⟩ := hx
            rw [hxm] at hxt
            exact absurd (lt_of_lt_of_le (lt_trans hxt hs3) hts) (lt_irrefl t)
          have hR : tl.find? (fun p : α × ℚ =>
              decide (p.2 = (((a, s) :: tl).map Prod.snd).foldl max bs) &&
                decide (bs < p.2) && decide (t < p.2)) = none := by
            rw [List.find?_eq_none]
            intro x _ hx
            simp only [Bool.and_eq_true, decide_eq_true_eq] at hx
            obtain ⟨⟨hxm, _⟩, hxt⟩ := hx
            rw [hxm, hM1.trans (max_eq_right (le_of_lt hs3))] at hxt
            exact absurd (lt_of_lt_of_le hxt hts) (lt_irrefl t)
          rw [hL, hR]
      · have hM2 : (((a, s) :: tl).map Prod.snd).foldl max bs =
            (tl.map Prod.snd).foldl max bs := by
          rw [hM0, max_eq_left (le_of_not_lt hbs)]
        rw [hM2]

theorem faqScan_eq_selLoop (sim : String → String → ℚ) (qLower : String)
    (qWords : List (List Char)) (es : List (String × FAQItem)) :
    ∀ acc, faqScan sim qLower qWords es acc =
      selLoop ((1 : ℚ) / 5) (es.map (fun e =>
        (buildFaqMatch qWords e.1 e.2 (totalScore sim qLower qWords e.2),
         totalScore sim qLower qWords e.2))) acc := by
  induction es with
  | nil => intro acc; rfl
  | cons e rest ih =>
    intro acc
    obtain ⟨pn, it⟩ := e
    obtain ⟨bm, bs⟩ := acc
    simp only [faqScan, List.map_cons, selLoop]
    rw [ih]

/-! ### Parsing claims -/

theorem processLine_cases (st : ScanState) (l : List Char) :
    (processLine st l).curr.all_courses = st.curr.all_courses ∨
    ∃ s nm tok, courseMatch (pyStrip l) = some (s, nm, tok) ∧
      ∃ c : Course, (processLine st l).curr.all_courses = st.curr.all_courses ++ [c] ∧
        c.credits = (splitCredits tok).1 ∧ c.hours = (splitCredits tok).2 := by
  unfold processLine
  split
  · exact Or.inl rfl
  · split
    · exact Or.inl rfl
    · split
      · exact Or.inl rfl
      · split
        · exact Or.inl rfl
        · split
          next semNum nameRaw tok heq =>
            exact Or.inr ⟨semNum, nameRaw, tok, heq, _, rfl, rfl, rfl⟩
          next => exact Or.inl rfl

theorem foldl_processLine_mem (lines : List (List Char)) :
    ∀ (st : ScanState) (c : Course),
      c ∈ (lines.foldl processLine st).curr.all_courses →
      c ∈ st.curr.all_courses ∨
      ∃ l ∈ lines, ∃ s nm tok, courseMatch (pyStrip l) = some (s, nm, tok) ∧
        c.credits = (splitCredits tok).1 ∧ c.hours = (splitCredits tok).2 := by
  induction lines with
  | nil => intro st c h; exact Or.inl h
  | cons l ls ih =>
    intro st c h
    simp only [List.foldl_cons] at h
    rcases ih (processLine st l) c h with h1 | ⟨l2, hl2, s, nm, tok, hm, hcr, hhr⟩
    · rcases processLine_cases st l with he | ⟨s, nm, tok, hm, c2, he, hcr, hhr⟩
      · rw [he] at h1; exact Or.inl h1
      · rw [he] at h1
        rcases List.mem_append.mp h1 with h2 | h2
        · exact Or.inl h2
        · refine Or.inr ⟨l, List.mem_cons_self l ls, s, nm, tok, hm, ?_, ?_⟩
          · rw [List.mem_singleton.mp h2]; exact hcr
          · rw [List.mem_singleton.mp h2]; exact hhr
    · exact Or.inr ⟨l2, List.mem_cons_of_mem l hl2, s, nm, tok, hm, hcr, hhr⟩

/-- C2: every course recorded by extract_curriculum_data comes from an input
line accepted by the course pattern, and if the trailing merged numeric token
has at least 4 digits then the recorded credits are the integer value of its
first digit and the recorded hours the integer value of the remaining digits;
otherwise the credits are the integer value of the whole token and the hours
are 0. -/
theorem C2_thm (text : String) (c : Course)
    (hc : c ∈ (extract_curriculum_data text).all_courses) :
    ∃ line ∈ splitNL text.data [], ∃ s nm tok,
      courseMatch (pyStrip line) = some (s, nm, tok) ∧
      ((4 ≤ tok.length ∧ c.credits = natOfDigits (tok.take 1) ∧
          c.hours = natOfDigits (tok.drop 1)) ∨
       (tok.length < 4 ∧ c.credits = natOfDigits tok ∧ c.hours = 0)) := by
  unfold extract_curriculum_data at hc
  rcases foldl_processLine_mem _ _ c hc with h1 | ⟨l, hl, s, nm, tok, hm, hcr, hhr⟩
  · exact absurd h1 (List.not_mem_nil c)
  · refine ⟨l, hl, s, nm, tok, hm, ?_⟩
    unfold splitCredits at hcr hhr
    by_cases h4 : 4 ≤ tok.length
    · rw [if_pos h4] at hcr hhr
      exact Or.inl ⟨h4, hcr, hhr⟩
    · rw [if_neg h4] at hcr hhr
      exact Or.inr ⟨by omega, hcr, hhr⟩

/-- C2 witness: the concrete line of scenario A, whose token 1306 splits into
1 credit and 306 hours. -/
theorem C2_witness :
    demoCourse ∈ (extract_curriculum_data demoText).all_courses ∧
    ∃ line ∈ splitNL demoText.data [], ∃ s nm tok,
      courseMatch (pyStrip line) = some (s, nm, tok) ∧
      ((4 ≤ tok.length ∧ demoCourse.credits = natOfDigits (tok.take 1) ∧
          demoCourse.hours = natOfDigits (tok.drop 1)) ∨
       (tok.length < 4 ∧ demoCourse.credits = natOfDigits tok ∧ demoCourse.hours = 0)) :=
  ⟨by decide, C2_thm demoText demoCourse (by decide)⟩

/-- C10: a line whose stripped text contains a digit run followed by the
semester marker only updates the tracked semester and pre-initializes its
bucket; no course is recorded from it, even when the line also matches the
course pattern. -/
theorem C10_thm (st : ScanState) (line : List Char) (n : Nat)
    (h : semSearch (pyStrip line) = some n) :
    processLine st line =
      { st with current_semester := some n,
                curr := { st.curr with semesters := initSem n st.curr.semesters } } ∧
    (processLine st line).curr.all_courses = st.curr.all_courses := by
  have hne : (pyStrip line).isEmpty = false := by
    cases hl : pyStrip line with
    | nil => rw [hl] at h; simp [semSearch] at h
    | cons a as => rfl
  have h1 : processLine st line =
      { st with current_semester := some n,
                curr := { st.curr with semesters := initSem n st.curr.semesters } } := by
    unfold processLine
    rw [if_neg (by simp [hne]), h]
  exact ⟨h1, by rw [h1]⟩

/-- C10 witness: the line matches both the semester pattern and the course
pattern, and processing it records no course. -/
theorem C10_witness :
    courseMatch (pyStrip demoLine) = some (1, " семестр".data, "2306".data) ∧
    processLine st0 demoLine = ⟨⟨"", [(1, ⟨[], []⟩)], [], [], []⟩, some 1, none⟩ :=
  ⟨by decide, ((C10_thm st0 demoLine 1 (by decide)).1).trans (by decide)⟩

/-! ### FAQ claims -/

theorem faqScan_score_floor (sim : String → String → ℚ) (qL : String)
    (qW : List (List Char)) :
    ∀ (es : List (String × FAQItem)) (bm : Option FAQMatch) (bs : ℚ),
      (∀ m0, bm = some m0 → (1 : ℚ) / 5 < m0.score) →
      ∀ m, (faqScan sim qL qW es (bm, bs)).1 = some m → (1 : ℚ) / 5 < m.score := by
  intro es
  induction es with
  | nil => intro bm bs hinv m hm; exact hinv m hm
  | cons e rest ih =>
    intro bm bs hinv m hm
    obtain ⟨pn, it⟩ := e
    simp only [faqScan] at hm
    by_cases hC : bs < totalScore sim qL qW it ∧ (1 : ℚ) / 5 < totalScore sim qL qW it
    · rw [if_pos hC] at hm
      refine ih _ _ (fun m0 h0 => ?_) m hm
      cases Option.some.inj h0
      exact hC.2
    · rw [if_neg hC] at hm
      exact ih _ _ hinv m hm

/-- C4: in the FAQ scan a candidate replaces the running best iff its score
strictly exceeds both the current best and the 1/5 floor; consequently every
returned match has score above 1/5, and the returned match is the first-seen
entry attaining the maximal score (ties keep the first). -/
theorem C4_thm (sim : String → String → ℚ) (q : String)
    (corpus : List (String × List FAQItem)) :
    (∀ m, find_best_answer sim q corpus = some m → (1 : ℚ) / 5 < m.score) ∧
    (is_relevant_question q = true →
      find_best_answer sim q corpus = specFaqBest sim q corpus) := by
  constructor
  · intro m hm
    unfold find_best_answer at hm
    by_cases hrel : is_relevant_question q = true
    · rw [hrel, if_pos rfl] at hm
      refine faqScan_score_floor sim (pyLower q) ((pyWords (pyLower q)).dedup) _ none 0
        (fun m0 h0 => ?_) m hm
      exact absurd h0 (by simp)
    · rw [Bool.not_eq_true] at hrel
      rw [hrel] at hm
      exact absurd hm (by simp)
  · intro hrel
    unfold find_best_answer
    rw [hrel, if_pos rfl, faqScan_eq_selLoop, selLoop_eq]
    have hscored : (corpusEntries corpus).map (fun e =>
        (buildFaqMatch ((pyWords (pyLower q)).dedup) e.1 e.2
           (totalScore sim (pyLower q) ((pyWords (pyLower q)).dedup) e.2),
         totalScore sim (pyLower q) ((pyWords (pyLower q)).dedup) e.2)) =
        scoredEntries sim q corpus := rfl
    rw [hscored]
    unfold specFaqBest
    have hpe : (fun p : FAQMatch × ℚ =>
          decide (p.2 = ((scoredEntries sim q corpus).map Prod.snd).foldl max 0) &&
            decide ((0 : ℚ) < p.2) && decide ((1 : ℚ) / 5 < p.2)) =
        (fun p : FAQMatch × ℚ =>
          decide (p.2 = ((scoredEntries sim q corpus).map Prod.snd).foldl max 0) &&
            decide ((1 : ℚ) / 5 < p.2)) := by
      funext p
      by_cases h1 : (1 : ℚ) / 5 < p.2
      · have h2 : (0 : ℚ) < p.2 := lt_trans (by norm_num) h1
        simp [h1, h2]
      · rw [one_div] at h1
        simp [h1]
    rw [hpe]
    cases hf : (scoredEntries sim q corpus).find? (fun p : FAQMatch × ℚ =>
        decide (p.2 = ((scoredEntries sim q corpus).map Prod.snd).foldl max 0) &&
          decide ((1 : ℚ) / 5 < p.2)) with
    | some p => rfl
    | none => rfl

/-- C4 witness: the theorem applied to a concrete relevant question, a
concrete similarity function and a concrete corpus. -/
theorem C4_witness :
    is_relevant_question "Сколько стоит обучение?" = true ∧
    find_best_answer simZero "Сколько стоит обучение?" demoCorpus =
      specFaqBest simZero "Сколько стоит обучение?" demoCorpus :=
  ⟨by decide, (C4_thm simZero "Сколько стоит обучение?" demoCorpus).2 (by decide)⟩

/-- C5: a question whose lowercasing contains none of the relevance keywords
makes find_best_answer return the out-of-domain outcome for every similarity
function and every corpus, so no entry of any corpus is ever scored. -/
theorem C5_thm (q : String) (h : is_relevant_question q = false) :
    ∀ (sim : String → String → ℚ) (corpus : List (String × List FAQItem)),
      find_best_answer sim q corpus = none := by
  intro sim corpus
  unfold find_best_answer
  simp [h]

/-- C5 witness: scenario D, a greeting containing no relevance keyword. -/
theorem C5_witness :
    is_relevant_question "Привет как дела?" = false ∧
    find_best_answer simZero "Привет как дела?" demoCorpus = none :=
  ⟨by decide, C5_thm "Привет как дела?" (by decide) simZero demoCorpus⟩

/-! ### Profile classifier claims -/

theorem user_profiles_keywords_nodup :
    ∀ p ∈ user_profiles, p.2.keywords.Nodup := by decide

/-- C8: the classifier selects exactly the first registry archetype attaining
the maximal adjusted score when that maximum is positive (so a tie keeps the
earlier-registered archetype), and each raw score counts distinct keywords
(the matched-keyword lists are duplicate-free). -/
theorem C8_thm (bg : String) :
    findBestProfile (profile_scores (pyLower bg)) =
      specFirstPosMax (profile_scores (pyLower bg)) ∧
    ∀ p ∈ user_profiles, (profileRawMatches (pyLower bg) p.2).Nodup := by
  constructor
  · unfold findBestProfile specFirstPosMax
    exact bestLoop_eq _ none 0
  · intro p hp
    exact (user_profiles_keywords_nodup p hp).filter _

/-- C8 witness: the theorem applied to a concrete biography and the first
registry archetype. -/
theorem C8_witness :
    findBestProfile (profile_scores (pyLower "")) =
      specFirstPosMax (profile_scores (pyLower "")) ∧
    (profileRawMatches (pyLower "") fullstackProfile).Nodup :=
  ⟨(C8_thm "").1, (C8_thm "").2 ("fullstack_developer", fullstackProfile) (by decide)⟩

theorem adjScoreQ_strictMono : ∀ n m : Nat, n < m → adjScoreQ n < adjScoreQ m := by
  intro n m hnm
  unfold adjScoreQ
  rw [if_pos (by omega : 0 < m)]
  by_cases hn : 0 < n
  · rw [if_pos hn]
    have h1 : (n : ℚ) < m := by exact_mod_cast hnm
    have h2 : (0 : ℚ) < n := by exact_mod_cast hn
    nlinarith
  · rw [if_neg hn]
    have hn0 : n = 0 := by omega
    subst hn0
    have h1 : (0 : ℚ) < m := by exact_mod_cast (by omega : 0 < m)
    push_cast
    nlinarith

theorem adjScoreQ_mono {n m : Nat} (h : n ≤ m) : adjScoreQ n ≤ adjScoreQ m := by
  rcases Nat.eq_or_lt_of_le h with he | hlt
  · rw [he]
  · exact le_of_lt (adjScoreQ_strictMono n m hlt)

theorem bestLoop_map_mono (xs : List (String × Nat)) :
    ∀ (bp : Option String) (bsn : Nat),
      (bestLoop (xs.map (fun p => (p.1, adjScoreQ p.2))) (bp, adjScoreQ bsn)).1 =
      (bestLoop (xs.map (fun p => (p.1, (p.2 : ℚ)))) (bp, (bsn : ℚ))).1 := by
  induction xs with
  | nil => intro bp bsn; rfl
  | cons hd tl ih =>
    intro bp bsn
    obtain ⟨n, v⟩ := hd
    simp only [List.map_cons, bestLoop]
    by_cases h : bsn < v
    · rw [if_pos (adjScoreQ_strictMono _ _ h), if_pos (by exact_mod_cast h)]
      exact ih (some n) v
    · have hvb : v ≤ bsn := Nat.le_of_not_lt h
      rw [if_neg (not_lt.mpr (adjScoreQ_mono hvb)),
        if_neg (not_lt.mpr (by exact_mod_cast hvb))]
      exact ih bp bsn

/-- C9: the bonus adjustment is strictly increasing in the raw matched count,
and therefore the archetype selected from the adjusted scores is always the
same as the one a stable first-wins argmax over the raw counts selects. -/
theorem C9_thm :
    (∀ n m : Nat, n < m → adjScoreQ n < adjScoreQ m) ∧
    ∀ bg : String,
      (findBestProfile (profile_scores (pyLower bg))).1 =
      (findBestProfile (raw_scores (pyLower bg))).1 := by
  refine ⟨adjScoreQ_strictMono, ?_⟩
  intro bg
  unfold findBestProfile profile_scores raw_scores
  have h1 : user_profiles.map
      (fun p => (p.1, adjScoreQ (profileRawMatches (pyLower bg) p.2).length)) =
      (user_profiles.map (fun p => (p.1, (profileRawMatches (pyLower bg) p.2).length))).map
        (fun p => (p.1, adjScoreQ p.2)) := by
    rw [List.map_map]; rfl
  have h2 : user_profiles.map
      (fun p => (p.1, ((profileRawMatches (pyLower bg) p.2).length : ℚ))) =
      (user_profiles.map (fun p => (p.1, (profileRawMatches (pyLower bg) p.2).length))).map
        (fun p => (p.1, (p.2 : ℚ))) := by
    rw [List.map_map]; rfl
  rw [h1, h2]
  have h3 := bestLoop_map_mono
    (user_profiles.map (fun p => (p.1, (profileRawMatches (pyLower bg) p.2).length))) none 0
  simpa [adjScoreQ] using h3

/-- C9 witness: the monotonicity applied at 2 and 3, and the selection
equality on a concrete biography. -/
theorem C9_witness :
    adjScoreQ 2 < adjScoreQ 3 ∧
    (findBestProfile (profile_scores (pyLower "kaggle"))).1 =
      (findBestProfile (raw_scores (pyLower "kaggle"))).1 :=
  ⟨C9_thm.1 2 3 (by decide), C9_thm.2 "kaggle"⟩

/-! ### Categorizer partition claim -/

theorem assignCategory_mem (nm : List Char) : assignCategory nm ∈ categoryKeys := by
  unfold assignCategory categoryKeys
  cases hf : categories.find? (fun cd => cd.2.1.any (fun kw => containsSub nm kw.data)) with
  | none => simp
  | some cd =>
    exact List.mem_append.mpr
      (Or.inl (List.mem_map.mpr ⟨cd, List.mem_of_find?_eq_some hf, rfl⟩))

theorem sum_indicator_nodup {β : Type} [DecidableEq β] (b : β) :
    ∀ keys : List β, keys.Nodup → b ∈ keys →
      (keys.map (fun k => if (b == k) = true then (1 : Nat) else 0)).sum = 1 := by
  intro keys
  induction keys with
  | nil => intro _ hb; exact absurd hb (List.not_mem_nil b)
  | cons k ks ih =>
    intro hnd hb
    rw [List.nodup_cons] at hnd
    rcases List.mem_cons.mp hb with rfl | hb2
    · simp only [List.map_cons, List.sum_cons, beq_self_eq_true, if_pos rfl]
      have hz : (ks.map (fun j => if (b == j) = true then (1 : Nat) else 0)).sum = 0 := by
        apply List.sum_eq_zero
        intro x hx
        obtain ⟨j, hj, hjx⟩ := List.mem_map.mp hx
        have hbj : ¬ b = j := fun he => hnd.1 (he ▸ hj)
        rw [← hjx]
        simp [hbj]
      rw [hz]
      simp
    · have hbk : ¬ b = k := fun he => hnd.1 (he ▸ hb2)
      simp only [List.map_cons, List.sum_cons]
      rw [if_neg (by simp [hbk]), ih hnd.2 hb2]

theorem countP_partition {β : Type} [DecidableEq β] (f : Course → β) :
    ∀ (l : List Course) (keys : List β), keys.Nodup → (∀ c ∈ l, f c ∈ keys) →
      (keys.map (fun k => l.countP (fun c => f c == k))).sum = l.length := by
  intro l
  induction l with
  | nil => intro keys _ _; simp
  | cons c cs ih =>
    intro keys hnd hmem
    simp only [List.countP_cons, List.length_cons]
    rw [List.sum_map_add, ih keys hnd (fun x hx => hmem x (List.mem_cons_of_mem c hx)),
      sum_indicator_nodup (f c) keys hnd (hmem c (List.mem_cons_self c cs))]

/-- C3: categorize_subjects partitions allCourses over the 8 buckets: each
course is assigned one key of the registry-plus-other key list, the bucket
sizes sum to the number of courses, and no course lies in two buckets. -/
theorem C3_thm (curr : Curriculum) :
    (categoryKeys.map (fun k => (categorized curr k).length)).sum =
      curr.all_courses.length ∧
    (∀ c ∈ curr.all_courses, courseCategory c ∈ categoryKeys) ∧
    ∀ k1 ∈ categoryKeys, ∀ k2 ∈ categoryKeys, k1 ≠ k2 →
      ∀ c, c ∈ categorized curr k1 → c ∉ categorized curr k2 := by
  refine ⟨?_, fun c _ => assignCategory_mem _, ?_⟩
  · have hkeys : categoryKeys.Nodup := by decide
    simp only [categorized, ← List.countP_eq_length_filter]
    exact countP_partition courseCategory curr.all_courses categoryKeys hkeys
      (fun c _ => assignCategory_mem _)
  · intro k1 _ k2 _ hne c hc1 hc2
    have h1 := (List.mem_filter.mp hc1).2
    have h2 := (List.mem_filter.mp hc2).2
    simp only [beq_iff_eq] at h1 h2
    exact hne (h1.symm.trans h2)

/-- C3 witness: the partition instantiated on a concrete curriculum. -/
theorem C3_witness :
    (categoryKeys.map (fun k => (categorized demoCurr k).length)).sum =
      demoCurr.all_courses.length ∧
    courseCategory demoCourseML ∈ categoryKeys ∧
    demoCourseML ∉ categorized demoCurr "other" :=
  ⟨(C3_thm demoCurr).1,
   (C3_thm demoCurr).2.1 demoCourseML (by decide),
   (C3_thm demoCurr).2.2 "machine_learning" (by decide) "other" (by decide) (by decide)
     demoCourseML (by decide)⟩

/-! ### Recommendation engine claims -/

theorem recGe_total : ∀ a b : Rec, recGe a b = true ∨ recGe b a = true := by
  intro a b
  unfold recGe
  simp only [decide_eq_true_eq]
  omega

theorem recGe_trans : ∀ a b c : Rec,
    recGe a b = true → recGe b c = true → recGe a c = true := by
  intro a b c
  unfold recGe
  simp only [decide_eq_true_eq]
  omega

/-- C6: the recommendation list never exceeds 10 entries and is sorted in
descending lexicographic order of the composite key (priority, credits). -/
theorem C6_thm (bg : String) (curr : Curriculum) :
    (generate_recommendations bg curr).recommendations.length ≤ 10 ∧
    (generate_recommendations bg curr).recommendations.Pairwise
      (fun a b => b.priority < a.priority ∨
        (b.priority = a.priority ∧ b.course.credits ≤ a.course.credits)) := by
  have hrec : (generate_recommendations bg curr).recommendations =
      (stableSortBy recGe (recPool (profileChoice bg) curr)).take 10 := rfl
  rw [hrec]
  constructor
  · rw [List.length_take]
    exact min_le_left _ _
  · have hs := stableSortBy_pairwise recGe_total recGe_trans
      (recPool (profileChoice bg) curr)
    have ht : ((stableSortBy recGe (recPool (profileChoice bg) curr)).take 10).Pairwise
        (fun a b => recGe a b = true) :=
      List.Pairwise.sublist (List.take_sublist 10 _) hs
    exact ht.imp (fun hab => by simpa [recGe, decide_eq_true_eq] using hab)

theorem registryChoice_dominant (p : String) : (registryChoice p).dominant = some p := by
  unfold registryChoice
  cases user_profiles.lookup p <;> rfl

theorem profileFallback_or (s : String) :
    (∃ p, (profileFallback s).dominant = some p) ∨
    profileFallback s =
      ⟨none, ["machine_learning", "programming", "data_science"], "Не определен"⟩ := by
  unfold profileFallback
  split
  · exact Or.inl ⟨"general_developer", rfl⟩
  · exact Or.inr rfl

theorem profileChoice_dominant_or (bg : String) :
    (∃ p, (profileChoice bg).dominant = some p) ∨
    profileChoice bg =
      ⟨none, ["machine_learning", "programming", "data_science"], "Не определен"⟩ := by
  unfold profileChoice
  split
  next p _ =>
    split
    · exact Or.inl ⟨p, registryChoice_dominant p⟩
    · exact profileFallback_or _
  next _ => exact profileFallback_or _

theorem profileChoice_none (bg : String) (h : (profileChoice bg).dominant = none) :
    profileChoice bg =
      ⟨none, ["machine_learning", "programming", "data_science"], "Не определен"⟩ := by
  rcases profileChoice_dominant_or bg with ⟨p, hp⟩ | he
  · rw [hp] at h
    exact absurd h (by simp)
  · exact he

/-- C1 counterexample: with an undetermined profile, the recommendation at
preference position 0 has the top-priority suffix appended, so its reason is
not the fixed baseline string the claim demands for every position. -/
theorem C1_counterexample :
    (generate_recommendations "" demoCurr).dominant_profile_key = none ∧
    (generate_recommendations "" demoCurr).recommendations.map (fun r => r.reason) =
      ["Базовая рекомендация (приоритетная область)"] ∧
    ("Базовая рекомендация (приоритетная область)" : String) ≠ "Базовая рекомендация" :=
  ⟨by decide, by decide, by decide⟩

/-- C1 (amended): when the classified profile is undetermined every emitted
recommendation has the baseline reason string, except that at preference
position 0 (priority 3) the top-priority suffix is appended to it. -/
theorem C1_thm (bg : String) (curr : Curriculum)
    (h : (generate_recommendations bg curr).dominant_profile_key = none) :
    ∀ r ∈ (generate_recommendations bg curr).recommendations,
      r.reason = if r.priority = 3 then "Базовая рекомендация (приоритетная область)"
                 else "Базовая рекомендация" := by
  have hch : profileChoice bg =
      ⟨none, ["machine_learning", "programming", "data_science"], "Не определен"⟩ :=
    profileChoice_none bg h
  intro r hr
  have hr2 : r ∈ stableSortBy recGe (recPool (profileChoice bg) curr) :=
    List.mem_of_mem_take hr
  have hr3 : r ∈ recPool (profileChoice bg) curr := (stableSortBy_perm _ _).mem_iff.mp hr2
  rw [hch] at hr3
  simp only [recPool, List.enum, List.enumFrom, List.flatMap_cons, List.flatMap_nil,
    List.append_nil, List.mem_append] at hr3
  rcases hr3 with h1 | h1 | h1 <;>
    (simp only [recsForCategory] at h1;
     obtain ⟨s, hs, rfl⟩ := List.mem_map.mp h1;
     simp [recReason])

/-- C1 witness: the amended statement applied at a concrete biography with
an undetermined profile. -/
theorem C1_witness :
    (generate_recommendations "" demoCurr).dominant_profile_key = none ∧
    ∀ r ∈ (generate_recommendations "" demoCurr).recommendations,
      r.reason = if r.priority = 3 then "Базовая рекомендация (приоритетная область)"
                 else "Базовая рекомендация" :=
  ⟨by decide, C1_thm "" demoCurr (by decide)⟩

theorem creditsGe_total : ∀ a b : Course, creditsGe a b = true ∨ creditsGe b a = true := by
  intro a b
  unfold creditsGe
  simp only [decide_eq_true_eq]
  omega

theorem creditsGe_trans : ∀ a b c : Course,
    creditsGe a b = true → creditsGe b c = true → creditsGe a c = true := by
  intro a b c
  unfold creditsGe
  simp only [decide_eq_true_eq]
  omega

theorem recsForCategory_priority (choice : ProfileChoice) (i : Nat) (cat : String)
    (subjects : List Course) :
    ∀ r ∈ recsForCategory choice i cat subjects,
      r.priority = choice.preferences.length - i := by
  intro r hr
  simp only [recsForCategory] at hr
  obtain ⟨s, _, rfl⟩ := List.mem_map.mp hr
  rfl

theorem recPool_filter_segment (choice : ProfileChoice) (curr : Curriculum) :
    ∀ (prefs : List String) (st i : Nat) (h : i < prefs.length),
      st + prefs.length ≤ choice.preferences.length →
      ((prefs.enumFrom st).flatMap
          (fun p => recsForCategory choice p.1 p.2 (categorized curr p.2))).filter
        (fun r => r.priority == choice.preferences.length - (st + i))
      = recsForCategory choice (st + i) (prefs.get ⟨i, h⟩)
          (categorized curr (prefs.get ⟨i, h⟩)) := by
  intro prefs
  induction prefs with
  | nil => intro st i h; exact absurd h (by simp)
  | cons a as ih =>
    intro st i h hle
    have hle2 : st + (as.length + 1) ≤ choice.preferences.length := by
      simpa [List.length_cons] using hle
    rw [List.enumFrom_cons, List.flatMap_cons, List.filter_append]
    cases i with
    | zero =>
      have hhead : (recsForCategory choice st a (categorized curr a)).filter
          (fun r => r.priority == choice.preferences.length - (st + 0)) =
          recsForCategory choice st a (categorized curr a) := by
        rw [List.filter_eq_self]
        intro r hr
        rw [recsForCategory_priority choice st a _ r hr]
        simp
      have htail : ((List.enumFrom (st + 1) as).flatMap
          (fun p => recsForCategory choice p.1 p.2 (categorized curr p.2))).filter
          (fun r => r.priority == choice.preferences.length - (st + 0)) = [] := by
        rw [List.filter_eq_nil_iff]
        intro r hr
        obtain ⟨⟨k, b⟩, hk, hrk⟩ := List.mem_flatMap.mp hr
        obtain ⟨hb1, hb2, _⟩ := List.mem_enumFrom hk
        rw [recsForCategory_priority choice k b _ r hrk]
        simp only [beq_iff_eq]
        omega
      rw [hhead, htail, List.append_nil]
      rfl
    | succ j =>
      have hj : j < as.length := by simpa [List.length_cons] using h
      have hhead : (recsForCategory choice st a (categorized curr a)).filter
          (fun r => r.priority == choice.preferences.length - (st + (j + 1))) = [] := by
        rw [List.filter_eq_nil_iff]
        intro r hr
        rw [recsForCategory_priority choice st a _ r hr]
        simp only [beq_iff_eq]
        omega
      rw [hhead, List.nil_append]
      have hstep := ih (st + 1) j hj (by omega)
      rw [show st + (j + 1) = st + 1 + j from by omega]
      rw [hstep, List.get_cons_succ]

/-- C7: for the preferred category at position i, the candidate pool segment
with priority preference-length minus i is exactly the first max 1 (4 - i)
elements of a list that is a permutation of the elective courses of that
category, sorted descending by credits, with equal-credit courses kept in
their original relative order. -/
theorem C7_thm (bg : String) (curr : Curriculum) (i : Nat)
    (h : i < (profileChoice bg).preferences.length) :
    ∃ s : List Course,
      s.Perm ((categorized curr ((profileChoice bg).preferences.get ⟨i, h⟩)).filter
        (fun c => c.type == "elective")) ∧
      s.Pairwise (fun a b => b.credits ≤ a.credits) ∧
      (∀ v : Nat, s.filter (fun c => c.credits == v) =
        ((categorized curr ((profileChoice bg).preferences.get ⟨i, h⟩)).filter
          (fun c => c.type == "elective")).filter (fun c => c.credits == v)) ∧
      (recPool (profileChoice bg) curr).filter
          (fun r => r.priority == (profileChoice bg).preferences.length - i) =
        (s.take (max 1 (4 - i))).map (fun c =>
          ⟨c, (profileChoice bg).preferences.get ⟨i, h⟩,
            recReason (profileChoice bg) i,
            (profileChoice bg).preferences.length - i⟩) := by
  refine ⟨stableSortBy creditsGe
    ((categorized curr ((profileChoice bg).preferences.get ⟨i, h⟩)).filter
      (fun c => c.type == "elective")), ?_, ?_, ?_, ?_⟩
  · exact stableSortBy_perm _ _
  · exact (stableSortBy_pairwise creditsGe_total creditsGe_trans _).imp
      (fun hab => by simpa [creditsGe, decide_eq_true_eq] using hab)
  · intro v
    refine stableSortBy_filter_class (fun a b ha hb => ?_) _
    simp only [beq_iff_eq] at ha hb
    simp [creditsGe, ha, hb]
  · have hseg := recPool_filter_segment (profileChoice bg) curr
      (profileChoice bg).preferences 0 i h (by omega)
    rw [show (0 : Nat) + i = i from by omega] at hseg
    unfold recPool
    rw [show (profileChoice bg).preferences.enum =
        (profileChoice bg).preferences.enumFrom 0 from rfl]
    rw [hseg]
    rfl

/-- C7 witness: the segment description instantiated at a concrete biography,
curriculum and the top preference position. -/
theorem C7_witness :
    ∃ s : List Course,
      s.Perm ((categorized demoCurr
          ((profileChoice "").preferences.get ⟨0, by decide⟩)).filter
        (fun c => c.type == "elective")) ∧
      s.Pairwise (fun a b => b.credits ≤ a.credits) ∧
      (∀ v : Nat, s.filter (fun c => c.credits == v) =
        ((categorized demoCurr ((profileChoice "").preferences.get ⟨0, by decide⟩)).filter
          (fun c => c.type == "elective")).filter (fun c => c.credits == v)) ∧
      (recPool (profileChoice "") demoCurr).filter
          (fun r => r.priority == (profileChoice "").preferences.length - 0) =
        (s.take (max 1 (4 - 0))).map (fun c =>
          ⟨c, (profileChoice "").preferences.get ⟨0, by decide⟩,
            recReason (profileChoice "") 0,
            (profileChoice "").preferences.length - 0⟩) :=
  C7_thm "" demoCurr 0 (by decide)
